import Mathlib

/-!
Verification of the `with_emulators` process supervisor.

The development shallowly embeds the Go sources: the readiness watcher
(`watchFor` and its `Write` method), the pure core of `(*Emulator).Env`,
the `Start`/`Stop` methods of the Emulator abstraction, the teardown and
environment-assembly sequences of `main`, and the signal-forwarding
goroutine.  Byte streams are modelled as `List Char`; the one-shot readiness
channel is modelled by a counter of `close` calls; the pass-through
destination (`base io.Writer`) is modelled as an error-free sink recording
the bytes it received.
-/

/-- Byte-wise test that `n` occurs at the very start of `h`; this is the
primitive scan underlying Go's `strings.Contains` and `strings.Replace`. -/
def leadsWith : List Char → List Char → Bool
  | [], _ => true
  | _ :: _, [] => false
  | a :: n, b :: h => a == b && leadsWith n h

/-- Translation of Go's `strings.Contains(h, n)`: `n` occurs as a contiguous
substring of `h` (at the start, or anywhere in the tail). -/
def containsSub (n : List Char) : List Char → Bool
  | [] => leadsWith n []
  | b :: t => leadsWith n (b :: t) || containsSub n t

lemma leadsWith_nil_left (h : List Char) : leadsWith [] h = true := by
  cases h <;> rfl

lemma containsSub_nil_left (h : List Char) : containsSub [] h = true := by
  induction h with
  | nil => rfl
  | cons b t ih => simp [containsSub, leadsWith_nil_left]

lemma leadsWith_append (n p q : List Char) (h : leadsWith n p = true) :
    leadsWith n (p ++ q) = true := by
  induction n generalizing p with
  | nil => exact leadsWith_nil_left _
  | cons a m ih =>
    cases p with
    | nil => simp [leadsWith] at h
    | cons b t =>
      simp only [leadsWith, Bool.and_eq_true] at h
      simp only [List.cons_append, leadsWith, Bool.and_eq_true]
      exact ⟨h.1, ih t h.2⟩

/-- Substring containment is stable under extending the haystack on the
right: once the watcher's buffer contains the sentinel, it keeps
containing it. -/
lemma containsSub_append (n p q : List Char) (h : containsSub n p = true) :
    containsSub n (p ++ q) = true := by
  induction p with
  | nil =>
    cases n with
    | nil => simpa using containsSub_nil_left q
    | cons a m => simp [containsSub, leadsWith] at h
  | cons b t ih =>
    simp only [containsSub, Bool.or_eq_true] at h
    simp only [List.cons_append, containsSub, Bool.or_eq_true]
    cases h with
    | inl h1 =>
      left
      have := leadsWith_append n (b :: t) q h1
      simpa using this
    | inr h2 => exact Or.inr (ih h2)

/-- State of the readiness watcher (`watchFor` in the source).  `signals`
counts how many times the one-shot channel `c` has been closed by the
watcher; `forwarded` records every byte handed to the pass-through
destination `base`. -/
structure WatchFor where
  sentinel : List Char
  buf : List Char
  done : Bool
  signals : Nat
  forwarded : List Char
deriving DecidableEq

/-- Translation of `(*watchFor).Write` (identical in cmd.go and the later
variants once the pass-through destination is error-free): forward the
chunk to `base`; if `done`, stop; otherwise append the chunk to the buffer
and, if the whole buffer now contains the sentinel, close the channel and
set `done`. -/
def WatchFor.write (w : WatchFor) (data : List Char) : WatchFor :=
  let w1 : WatchFor := { w with forwarded := w.forwarded ++ data }
  if w1.done = true then w1
  else
    let buf1 := w1.buf ++ data
    if containsSub w1.sentinel buf1 = true then
      { w1 with buf := buf1, done := true, signals := w1.signals + 1 }
    else
      { w1 with buf := buf1 }

/-- A freshly constructed watcher: empty buffer, channel open, nothing
forwarded yet. -/
def initWatch (sent : List Char) : WatchFor :=
  { sentinel := sent, buf := [], done := false, signals := 0, forwarded := [] }

/-- The watcher after its `Write` method has been called once per chunk of
`cs`, in order. -/
def runWatch (sent : List Char) (cs : List (List Char)) : WatchFor :=
  cs.foldl WatchFor.write (initWatch sent)

/-- Invariant tying a watcher state to the bytes written so far (valid from
the first `Write` call on): `done` tracks exactly whether the cumulative
input contains the sentinel, the channel has been closed exactly when
`done`, and until then the buffer is the whole cumulative input. -/
def WatchInv (sent written : List Char) (w : WatchFor) : Prop :=
  w.sentinel = sent ∧
  w.done = containsSub sent written ∧
  w.signals = (if w.done = true then 1 else 0) ∧
  (w.done = false → w.buf = written)

lemma watchInv_step (sent written : List Char) (w : WatchFor) (d : List Char)
    (h : WatchInv sent written w) : WatchInv sent (written ++ d) (w.write d) := by
  obtain ⟨hs, hdn, hsig, hbuf⟩ := h
  cases hw : w.done with
  | true =>
    have hc : containsSub sent written = true := by rw [← hdn, hw]
    have hext : containsSub sent (written ++ d) = true := containsSub_append _ _ _ hc
    refine ⟨?_, ?_, ?_, ?_⟩ <;>
      simp [WatchFor.write, hw, hs, hsig, hext]
  | false =>
    have hbw : w.buf = written := hbuf hw
    cases hc : containsSub sent (written ++ d) with
    | true =>
      refine ⟨?_, ?_, ?_, ?_⟩ <;>
        simp [WatchFor.write, hw, hs, hbw, hc, hsig]
    | false =>
      refine ⟨?_, ?_, ?_, ?_⟩ <;>
        simp [WatchFor.write, hw, hs, hbw, hc, hsig]

lemma watchInv_foldl (sent : List Char) (cs : List (List Char)) :
    ∀ (written : List Char) (w : WatchFor), WatchInv sent written w →
      WatchInv sent (written ++ cs.flatten) (cs.foldl WatchFor.write w) := by
  induction cs with
  | nil => intro written w h; simpa using h
  | cons c cs ih =>
    intro written w h
    have h1 := watchInv_step sent written w c h
    have h2 := ih (written ++ c) (w.write c) h1
    simpa [List.append_assoc] using h2

/-- After at least one `Write` call the invariant holds for the cumulative
input. -/
lemma watchInv_run (sent c0 : List Char) (cs : List (List Char)) :
    WatchInv sent ((c0 :: cs).flatten) (runWatch sent (c0 :: cs)) := by
  have h0 : WatchInv sent c0 ((initWatch sent).write c0) := by
    cases hc : containsSub sent c0 with
    | true =>
      refine ⟨?_, ?_, ?_, ?_⟩ <;>
        simp [WatchFor.write, initWatch, hc]
    | false =>
      refine ⟨?_, ?_, ?_, ?_⟩ <;>
        simp [WatchFor.write, initWatch, hc]
  have h1 := watchInv_foldl sent cs c0 ((initWatch sent).write c0) h0
  simpa [runWatch, List.foldl_cons, List.flatten_cons] using h1

/-- Sentinel the cmd.go launching goroutine watches for on the datastore
emulator's standard error. -/
def dsSentinel : List Char := "is now running".toList

/-- Number of times cmd.go's `main` closes the `datastoreRunning` channel
when the emulator child writes the chunks `chunks` to its standard error
and then exits: the watcher's closes, plus the unconditional
`close(datastoreRunning)` that the launching goroutine runs after
`cmd.Wait()` returns. -/
def cmdMainCloses (chunks : List (List Char)) : Nat :=
  (runWatch dsSentinel chunks).signals + 1

/-- Claim C1: for every sentinel and every way of splitting an input byte
stream into successive `Write` calls, the watcher has fulfilled its one-shot
readiness signal exactly once after any (positive) number of calls whose
cumulative input contains the sentinel, and zero times otherwise; with no
calls it has never fulfilled it.  Applied to every prefix of the call
sequence this says the signal fires precisely at the first call after which
the accumulation buffer contains the sentinel, and never fires when the
sentinel never appears. -/
theorem watchFor_fires_exactly_at_detection (sent c0 : List Char)
    (cs : List (List Char)) :
    ((runWatch sent (c0 :: cs)).signals
        = if containsSub sent ((c0 :: cs).flatten) = true then 1 else 0) ∧
      (runWatch sent []).signals = 0 := by
  obtain ⟨hs, hdn, hsig, hbuf⟩ := watchInv_run sent c0 cs
  constructor
  · rw [hsig, hdn]
  · rfl

/-- Claim C5: once the watcher is `done`, a further `Write` call still
forwards the chunk unmodified to the pass-through destination, does not
close the channel again, leaves the accumulation buffer untouched, and
stays `done`. -/
theorem watchFor_after_done (w : WatchFor) (d : List Char)
    (h : w.done = true) :
    (w.write d).forwarded = w.forwarded ++ d ∧
      (w.write d).signals = w.signals ∧
      (w.write d).buf = w.buf ∧
      (w.write d).done = true ∧
      (w.write d).sentinel = w.sentinel := by
  refine ⟨?_, ?_, ?_, ?_, ?_⟩ <;> simp [WatchFor.write, h]

/-- Witness for `watchFor_after_done` at a concrete done state. -/
theorem watchFor_after_done_witness :
    (WatchFor.mk "ok".toList "xok".toList true 1 "xok".toList).done = true ∧
      (((WatchFor.mk "ok".toList "xok".toList true 1 "xok".toList).write
            "zz".toList).forwarded = "xok".toList ++ "zz".toList ∧
        ((WatchFor.mk "ok".toList "xok".toList true 1 "xok".toList).write
            "zz".toList).signals = 1 ∧
        ((WatchFor.mk "ok".toList "xok".toList true 1 "xok".toList).write
            "zz".toList).buf = "xok".toList ∧
        ((WatchFor.mk "ok".toList "xok".toList true 1 "xok".toList).write
            "zz".toList).done = true ∧
        ((WatchFor.mk "ok".toList "xok".toList true 1 "xok".toList).write
            "zz".toList).sentinel = "ok".toList) :=
  ⟨rfl, watchFor_after_done (WatchFor.mk "ok".toList "xok".toList true 1
    "xok".toList) "zz".toList rfl⟩

/-- Claim C10: in the cmd.go variant, whenever the sentinel appears in the
emulator child's error output and the child later exits, the
`datastoreRunning` channel is closed twice — once by the watcher and once,
unconditionally, by the launching goroutine after `cmd.Wait()` — violating
the one-shot signal's fulfill-at-most-once invariant. -/
theorem cmdMain_double_close (chunks : List (List Char))
    (h : containsSub dsSentinel chunks.flatten = true) :
    cmdMainCloses chunks = 2 := by
  cases chunks with
  | nil => exact absurd h (by decide)
  | cons c0 cs =>
    obtain ⟨hs, hdn, hsig, hbuf⟩ := watchInv_run dsSentinel c0 cs
    unfold cmdMainCloses
    rw [hsig, hdn, h]
    rfl

/-- Witness for `cmdMain_double_close`: the whole sentinel arriving in one
chunk. -/
theorem cmdMain_double_close_witness :
    containsSub dsSentinel (List.flatten [dsSentinel]) = true ∧
      cmdMainCloses [dsSentinel] = 2 :=
  ⟨by decide, cmdMain_double_close [dsSentinel] (by decide)⟩

/-- The literal pattern removed by `Env()`: Go's
`strings.Replace(v, "export ", "", -1)`. -/
def exportPat : List Char := "export ".toList

/-- Fuel-bounded core of Go's `strings.Replace(s, pat, rep, -1)`: scan left
to right, replacing every non-overlapping occurrence of `pat` by `rep`.
The fuel only bounds the recursion; for a nonempty pattern every step
consumes at least one character, so `s.length` fuel always suffices and the
function agrees with the Go loop. -/
def replaceFuel (pat rep : List Char) : Nat → List Char → List Char
  | 0, s => s
  | _ + 1, [] => []
  | fuel + 1, c :: rest =>
    if leadsWith pat (c :: rest) = true then
      rep ++ replaceFuel pat rep fuel ((c :: rest).drop pat.length)
    else
      c :: replaceFuel pat rep fuel rest

/-- Go's `strings.Replace(s, pat, rep, -1)` for the nonempty patterns the
program uses. -/
def replaceGo (pat rep s : List Char) : List Char :=
  replaceFuel pat rep s.length s

/-- Pure core of `(*Emulator).Env` (and of the identical `Env` methods of
the other variants): split the helper command's combined output on
newlines, then delete every occurrence of `"export "` in each line. -/
def envLines (out : List Char) : List (List Char) :=
  (out.splitOn '\n').map (fun v => replaceGo exportPat [] v)

/-- Claim C2 counterexample: `Env()` does not strip only a single leading
`"export "` prefix and does not drop the trailing empty line.  On the line
`"export A=export 1"` the inner occurrence is deleted too, and the trailing
newline leaves an empty final element; in particular, on the claim's own
input `"export A=1\nexport B=2\n"` the result is not the two-element
sequence the claim states. -/
theorem env_strips_inner_and_keeps_trailing :
    envLines ("export A=export 1\n".toList) = ["A=1".toList, []] ∧
      envLines ("export A=export 1\n".toList) ≠ ["A=export 1".toList] ∧
      envLines ("export A=1\nexport B=2\n".toList)
        ≠ ["A=1".toList, "B=2".toList] := by
  refine ⟨by decide, by decide, by decide⟩

/-- Claim C2 amended: `Env()` splits the helper output into lines on
newlines and deletes every occurrence of `"export "` from each line (inner
occurrences included, not only a single leading prefix), and keeps the
empty final element produced by a trailing newline: for helper output
`"export A=1\nexport B=2\n"` the result is `["A=1", "B=2", ""]`, and for
`"export A=export 1\n"` it is `["A=1", ""]`. -/
theorem env_replace_all_and_trailing_empty :
    envLines ("export A=1\nexport B=2\n".toList)
        = ["A=1".toList, "B=2".toList, []] ∧
      envLines ("export A=export 1\n".toList) = ["A=1".toList, []] := by
  refine ⟨by decide, by decide⟩

/-- Runtime state of the Emulator abstraction: `ready` is the readiness
channel slot (`none` = nil channel, `some b` = a channel that is closed
exactly when `b`), `cmd` the child-command handle slot. -/
structure Emulator where
  ready : Option Bool
  cmd : Option Nat
deriving DecidableEq

/-- Translation of `(*Emulator).Start`: if the readiness slot is non-nil,
fail with the `already started` error and touch nothing; otherwise install
a fresh open channel and a fresh command handle (`freshCmd` stands for the
value `exec.Command` returns, with its watcher and process-group attributes
attached) and return the result of the spawn call (`spawnErr`). -/
def Emulator.start (e : Emulator) (freshCmd : Nat) (spawnErr : Option String) :
    Emulator × Option String :=
  if e.ready.isSome then (e, some "already started")
  else ({ ready := some false, cmd := some freshCmd }, spawnErr)

/-- Claim C4: calling `Start` when the readiness slot is already non-empty
(as after any successful first `Start`) returns the `already started` error
and leaves the state — child handle and readiness signal — exactly as it
was. -/
theorem emulator_start_twice (e : Emulator) (k : Nat) (sp : Option String)
    (h : e.ready.isSome = true) :
    Emulator.start e k sp = (e, some "already started") := by
  simp [Emulator.start, h]

/-- Witness for `emulator_start_twice` on a concrete started emulator. -/
theorem emulator_start_twice_witness :
    (Emulator.mk (some false) (some 7)).ready.isSome = true ∧
      Emulator.start (Emulator.mk (some false) (some 7)) 9 none
        = (Emulator.mk (some false) (some 7), some "already started") :=
  ⟨rfl, emulator_start_twice (Emulator.mk (some false) (some 7)) 9 none rfl⟩

/-- Signals the supervisor handles: interrupt, terminate, hang-up. -/
inductive Sig
  | int
  | term
  | hup
deriving DecidableEq

/-- Observable outcome of a `Stop` call: `target` is the pid argument
passed to `syscall.Kill` (a negative value means the whole process group, per the
kill(2) convention; `none` means no kill was attempted), `signal` the
signal passed to it, `waited` whether `cmd.Wait()` ran before returning,
and `result` the error value `Stop` returns. -/
structure StopOutcome where
  target : Option Int
  signal : Option Sig
  waited : Bool
  result : Option String
deriving DecidableEq

/-- Translation of `(*Emulator).Stop` (part_002): send SIGTERM to the
supervisor's own process group `-os.Getpid()` — which, by `sysprocattr`,
contains every child — returning the kill error if delivery fails;
otherwise run `e.cmd.Wait()`, discard its error, and return nil.
`killErr`/`waitErr` stand for the outcomes of the two system calls. -/
def Emulator.stop (selfPid : Nat) (killErr waitErr : Option String) :
    StopOutcome :=
  match killErr with
  | some e =>
    { target := some (-(selfPid : Int)), signal := some Sig.term,
      waited := false, result := some e }
  | none =>
    { target := some (-(selfPid : Int)), signal := some Sig.term,
      waited := true, result := none }

/-- Translation of `(*PubSub).Stop` / `(*Datastore).Stop` (part_000 and
part_001): look up the child's process group with `syscall.Getpgid`,
returning the lookup error on failure; then send SIGTERM to `-pgid`,
returning the kill error on failure; otherwise wait for the child,
discarding the wait error. -/
def PubSub.stop (pgid : Except String Nat) (killErr waitErr : Option String) :
    StopOutcome :=
  match pgid with
  | .error e =>
    { target := none, signal := none, waited := false, result := some e }
  | .ok g =>
    match killErr with
    | some e =>
      { target := some (-(g : Int)), signal := some Sig.term,
        waited := false, result := some e }
    | none =>
      { target := some (-(g : Int)), signal := some Sig.term,
        waited := true, result := none }

/-- Claim C8: both `Stop` implementations pass a negated process-group id
to `syscall.Kill` with SIGTERM (the group containing the child, never the
bare child pid), return exactly the signal-delivery (or, for the
PubSub/Datastore variants, group-lookup) error, wait for the child to be
reaped exactly when delivery succeeded, and never let the reaping step's
error influence the outcome. -/
theorem stop_signals_group_then_reaps (selfPid g : Nat)
    (killErr w1 w2 : Option String) (m : String) :
    (Emulator.stop selfPid killErr w1).target = some (-(selfPid : Int)) ∧
      (Emulator.stop selfPid killErr w1).signal = some Sig.term ∧
      (Emulator.stop selfPid killErr w1).result = killErr ∧
      (Emulator.stop selfPid killErr w1).waited = killErr.isNone ∧
      Emulator.stop selfPid killErr w1 = Emulator.stop selfPid killErr w2 ∧
      (PubSub.stop (.ok g) killErr w1).target = some (-(g : Int)) ∧
      (PubSub.stop (.ok g) killErr w1).signal = some Sig.term ∧
      (PubSub.stop (.ok g) killErr w1).result = killErr ∧
      (PubSub.stop (.ok g) killErr w1).waited = killErr.isNone ∧
      (PubSub.stop (.error m) killErr w1).result = some m ∧
      (PubSub.stop (.error m) killErr w1).waited = false ∧
      PubSub.stop (.ok g) killErr w1 = PubSub.stop (.ok g) killErr w2 := by
  cases killErr <;>
    refine ⟨rfl, rfl, rfl, rfl, rfl, rfl, rfl, rfl, rfl, rfl, rfl, rfl⟩

/-- Outcome of the supervisor `main`'s run-and-teardown tail (part_002
lines 60-70): which Managed Processes had `Stop` invoked (0 = datastore,
1 = pubsub, in program order) and the supervisor's process exit code. -/
structure RunOutcome where
  stopsAttempted : List Nat
  exitCode : Nat
deriving DecidableEq

/-- Translation of the tail of `main` (part_002): after `cmd.Run()` whose
failure (if any) is held in `cmdErr`, call `datastore.Stop()` — on error
`log.Fatalf` exits with code 1 at once; then `pubsub.Stop()` — likewise;
then, if `cmdErr` is non-nil, `log.Fatal(cmdErr)` exits with code 1;
otherwise `main` returns and the process exits 0.  `cmdErr` carries the
target's exit status, but `log.Fatal` never propagates it. -/
def mainTeardown (cmdErr : Option Nat) (stopDS stopPS : Option String) :
    RunOutcome :=
  match stopDS with
  | some _ => { stopsAttempted := [0], exitCode := 1 }
  | none =>
    match stopPS with
    | some _ => { stopsAttempted := [0, 1], exitCode := 1 }
    | none =>
      match cmdErr with
      | some _ => { stopsAttempted := [0, 1], exitCode := 1 }
      | none => { stopsAttempted := [0, 1], exitCode := 0 }

/-- Claim C3 counterexample: when the target command exits with status 3
(and both Stops succeed), the supervisor does run both Stops, but its own
exit status is 1 — `log.Fatal`'s fixed code — not 3. -/
theorem teardown_exit_code_not_target_status :
    mainTeardown (some 3) none none
        = { stopsAttempted := [0, 1], exitCode := 1 } ∧
      (mainTeardown (some 3) none none).exitCode ≠ 3 := by
  refine ⟨rfl, by decide⟩

/-- Claim C3 amended: if the target command exits with any non-zero status,
the supervisor still invokes `Stop` on every Managed Process before
surfacing the failure, but it then exits with status 1 (the fixed
`log.Fatal` code), not with the target's own exit status. -/
theorem teardown_stops_all_then_exits_one (s : Nat) :
    mainTeardown (some s) none none
      = { stopsAttempted := [0, 1], exitCode := 1 } := rfl

/-- Claim C7 counterexample: when the first Managed Process's `Stop` fails,
the supervisor exits immediately and the second `Stop` is never attempted,
contradicting collect-then-report. -/
theorem stop_failure_skips_remaining :
    (mainTeardown none (some "kill failed") none).stopsAttempted = [0] ∧
      (mainTeardown none (some "kill failed") none).stopsAttempted
        ≠ [0, 1] := by
  refine ⟨rfl, by decide⟩

/-- Claim C7 amended: a failure of the first Managed Process's `Stop` is
fatal at once — `log.Fatalf` exits with code 1, the remaining Managed
Process's `Stop` is not attempted, and no after-the-fact collected report
is produced. -/
theorem first_stop_failure_fatal (e : String) (ps : Option String)
    (c : Option Nat) :
    mainTeardown c (some e) ps = { stopsAttempted := [0], exitCode := 1 } :=
  rfl

/-- Environment assembly of the Emulator supervisor's `main` (part_002,
also part_000/part_001): `env := os.Environ()`, then append the datastore
contribution, then the pubsub contribution. -/
def mainEnv (ambient dsEnv psEnv : List String) : List String :=
  (ambient ++ dsEnv) ++ psEnv

/-- Environment assembly of cmd.go's `main`: `env` starts as the emulator's
(split and stripped) contribution and the ambient `os.Environ()` is
appended after it. -/
def cmdMainEnv (emuEnv ambient : List String) : List String :=
  emuEnv ++ ambient

/-- Claim C6 counterexample: in the cmd.go variant the target's environment
is the emulator's contribution followed by the ambient environment — not
the ambient environment first, as the claim states for every variant. -/
theorem cmd_env_ambient_appended_last :
    cmdMainEnv ["DATASTORE_HOST=localhost"] ["HOME=h"]
        = ["DATASTORE_HOST=localhost", "HOME=h"] ∧
      cmdMainEnv ["DATASTORE_HOST=localhost"] ["HOME=h"]
        ≠ ["HOME=h"] ++ ["DATASTORE_HOST=localhost"] := by
  refine ⟨rfl, by decide⟩

/-- Claim C6 amended: in the Emulator supervisor the target command's
environment is the ambient environment followed by the first-started
process's contribution and then the second's (so later entries may shadow
earlier keys), while in the cmd.go variant the emulator's contribution
comes first and the ambient environment is appended after it. -/
theorem env_order_per_variant (ambient ds ps emu : List String) :
    mainEnv ambient ds ps = ambient ++ (ds ++ ps) ∧
      cmdMainEnv emu ambient = emu ++ ambient := by
  refine ⟨(List.append_assoc ambient ds ps), rfl⟩

/-- Translation of `forwardSignals` (part_002): `signal.Notify` registers
interrupt/terminate/hang-up delivery into a channel, and a goroutine whose
body is a single, loop-free `select` receives one signal, forwards it to
the process group `-os.Getpid()` via the handle `os.FindProcess` returned,
and then returns — so of the signals received only the first is ever
forwarded. -/
def forwardSignals (selfPid : Nat) (received : List Sig) : List (Int × Sig) :=
  match received with
  | [] => []
  | s :: _ => [(-(selfPid : Int), s)]

/-- Claim C9 counterexample: a second received signal is not forwarded —
only the first interrupt is, and the following terminate never reaches the
group. -/
theorem forward_drops_second_signal :
    forwardSignals 42 [Sig.int, Sig.term] = [((-42 : Int), Sig.int)] ∧
      forwardSignals 42 [Sig.int, Sig.term]
        ≠ [((-42 : Int), Sig.int), ((-42 : Int), Sig.term)] := by
  refine ⟨rfl, by decide⟩

/-- Claim C9 amended: only the first interrupt, terminate, or hang-up
signal received by the supervisor is forwarded, identically, to the entire
process group (as a signal to `-pid`); the forwarding goroutine then exits,
and every later signal is not forwarded. -/
theorem forward_first_signal_only (p : Nat) (s : Sig) (rest : List Sig) :
    forwardSignals p (s :: rest) = [(-(p : Int), s)] ∧
      forwardSignals p [] = [] :=
  ⟨rfl, rfl⟩
